import Mathlib

/-!
# Verification of the Live-Commerce-Chat Socket.IO server (`src/server.ts`)

A shallow embedding of the server's in-memory data model and event handlers.
JavaScript `Map`s and plain objects (whose string keys keep insertion order)
are embedded as insertion-ordered association lists; `Set`s as duplicate-free
lists; timestamps (`Date.now()`) as `Nat` parameters supplied by the caller,
matching the event-loop model in which each handler invocation reads one
current time.  Outbound `socket.emit`/`io.to(room).emit`/`io.emit` calls are
embedded as an explicit effect list returned by each handler.
-/

namespace LiveChat


/-- Lookup in a JS `Map` / object embedded as an association list
(first matching key wins; maps built by `mapSet` have unique keys). -/
def mapGet {α : Type} : List (String × α) → String → Option α
  | [], _ => none
  | (k', v) :: rest, k => if k' = k then some v else mapGet rest k

/-- JS `Map.set` / object property assignment: update the existing entry in
place (keeping its position) or append a new entry at the end. -/
def mapSet {α : Type} : List (String × α) → String → α → List (String × α)
  | [], k, v => [(k, v)]
  | (k', v') :: rest, k, v =>
      if k' = k then (k, v) :: rest else (k', v') :: mapSet rest k v

/-- JS `Map.delete` / `delete obj[key]`: remove the entry for the key. -/
def mapDelete {α : Type} : List (String × α) → String → List (String × α)
  | [], _ => []
  | (k', v) :: rest, k => if k' = k then rest else (k', v) :: mapDelete rest k

/-- JS `Set.has` / `Array.prototype.includes` on strings. -/
def memB (x : String) : List String → Bool
  | [] => false
  | y :: ys => if y = x then true else memB x ys

/-- JS `Set.add`: append iff not already present. -/
def setAdd (s : List String) (x : String) : List String :=
  if memB x s then s else s ++ [x]

/-- Keys of an association list. -/
def keys {α : Type} (m : List (String × α)) : List String := m.map Prod.fst

/-- `type` field of a message (`"CHAT" | "ANNOUNCEMENT"` in the source). -/
inductive MsgType where
  | CHAT
  | ANNOUNCEMENT
deriving Repr, DecidableEq

/-- `role` field of a user (`"host" | "viewer"` in the source). -/
inductive Role where
  | host
  | viewer
deriving Repr, DecidableEq

/-- `Message` interface.  `reactions` is a JS object mapping emoji strings to
arrays of user ids; embedded as an insertion-ordered association list.  In the
source the field is optional, but every message this server constructs carries
`reactions: {}`, and `add_reaction` normalizes a missing map to `{}` before
use, so a total field is the faithful model of every message the server
handles. -/
structure Message where
  id : String
  userId : String
  username : String
  text : String
  type : MsgType
  timestamp : Nat
  deleted : Bool
  reactions : List (String × List String)
deriving Repr, DecidableEq

/-- `User` interface. -/
structure User where
  id : String
  username : String
  banned : Bool
  lastMessageTime : Nat
  role : Role
deriving Repr, DecidableEq

/-- `Room` interface (public room metadata). -/
structure Room where
  id : String
  name : String
  productName : String
  productDescription : String
  shopifyUrl : String
  hostId : String
  hostName : String
  videoUrl : String
  createdAt : Nat
  viewerCount : Nat
  messageCount : Nat
deriving Repr, DecidableEq

/-- `RoomData` interface: complete per-room server state. -/
structure RoomData where
  room : Room
  messages : List Message
  users : List (String × User)
  bannedUsers : List String
  slowModeEnabled : Bool
  slowModeInterval : Nat
deriving Repr, DecidableEq

/-- The in-memory database `db.rooms`, a `Map` from room id to `RoomData`. -/
abbrev Db := List (String × RoomData)

/-- `MAX_MESSAGES`: maximum messages kept in memory per room. -/
def MAX_MESSAGES : Nat := 300

inductive OutEvent where
  | roomsList (rooms : List Room)
  | roomCreated (room : Room)
  | roomAdded (room : Room)
  | errorEvent (message : String)
  | roomJoined (room : Room) (messages : List Message) (bannedUsers : List String)
      (slowModeEnabled : Bool) (slowModeInterval : Nat) (user : User)
  | viewerCountUpdated (count : Nat)
  | newMessage (m : Message)
  | messageDeleted (messageId : String)
  | userBanned (userId : String)
  | messagesCleared
  | slowModeChanged (enabled : Bool) (interval : Nat)
  | reactionUpdated (messageId : String) (reactions : List (String × List String))
deriving Repr, DecidableEq

inductive Target where
  | requester
  | room (roomId : String)
  | allClients
deriving Repr, DecidableEq

abbrev Effect := Target × OutEvent

/-- `createRoom`: store a fresh `RoomData` with empty chat state and default
moderation settings; returns the new database and the created room.  The
generated room id and `Date.now()` are passed in by the caller. -/
def createRoom (db : Db) (id name productName productDescription shopifyUrl
    hostId hostName videoUrl : String) (createdAt : Nat) : Db × Room :=
  let room : Room :=
    { id, name, productName, productDescription, shopifyUrl, hostId, hostName,
      videoUrl, createdAt, viewerCount := 0, messageCount := 0 }
  let roomData : RoomData :=
    { room, messages := [], users := [], bannedUsers := [],
      slowModeEnabled := false, slowModeInterval := 10000 }
  (mapSet db room.id roomData, room)

/-- `getRoomData`. -/
def getRoomData (db : Db) (roomId : String) : Option RoomData :=
  mapGet db roomId

/-- `getAllRooms`. -/
def getAllRooms (db : Db) : List Room :=
  db.map (fun data => data.2.room)

/-- The capped push that `addMessage` performs on the message array:
`push` followed by `slice(-MAX_MESSAGES)` when the length exceeds the cap
(`slice(-n)` keeps the last `n` elements). -/
def appendCapped (messages : List Message) (message : Message) : List Message :=
  let pushed := messages ++ [message]
  if MAX_MESSAGES < pushed.length then pushed.drop (pushed.length - MAX_MESSAGES)
  else pushed

/-- `addMessage`: append a message to a room's history, bump the lifetime
counter, and enforce the `MAX_MESSAGES` limit by dropping oldest messages. -/
def addMessage (db : Db) (roomId : String) (message : Message) : Db :=
  match getRoomData db roomId with
  | none => db
  | some roomData =>
      mapSet db roomId
        { roomData with
          messages := appendCapped roomData.messages message
          room := { roomData.room with
                    messageCount := roomData.room.messageCount + 1 } }

/-- `get_rooms` handler. -/
def getRoomsHandler (db : Db) : Db × List Effect :=
  (db, [(Target.requester, OutEvent.roomsList (getAllRooms db))])

/-- `create_room` handler.  `roomId` stands for the generated
`room-${Date.now()}-${random}` string and `now` for `Date.now()`; empty
strings model the absent/falsy `shopifyUrl` and `videoUrl` parameters that
the `||` defaults replace. -/
def createRoomHandler (db : Db) (socketId roomId name productName
    productDescription shopifyUrl hostName videoUrl : String) (now : Nat) :
    Db × List Effect :=
  let result := createRoom db roomId name productName productDescription
    (if shopifyUrl = "" then "https://www.shopify.com" else shopifyUrl)
    socketId hostName
    (if videoUrl = "" then "https://test-streams.mux.dev/x36xhzz/x36xhzz.m3u8"
     else videoUrl)
    now
  (result.1,
   [(Target.requester, OutEvent.roomCreated result.2),
    (Target.allClients, OutEvent.roomAdded result.2)])

/-- `join_room` handler. -/
def joinRoom (db : Db) (socketId roomId username : String) (isHost : Bool) :
    Db × List Effect :=
  match getRoomData db roomId with
  | none => (db, [(Target.requester, OutEvent.errorEvent "Room not found")])
  | some roomData =>
      let user : User :=
        { id := socketId, username,
          banned := memB socketId roomData.bannedUsers,
          lastMessageTime := 0,
          role := if isHost then Role.host else Role.viewer }
      let users := mapSet roomData.users socketId user
      let roomData' : RoomData :=
        { roomData with
          users := users
          room := { roomData.room with viewerCount := users.length } }
      (mapSet db roomId roomData',
       [(Target.requester,
         OutEvent.roomJoined roomData'.room roomData'.messages
           roomData'.bannedUsers roomData'.slowModeEnabled
           roomData'.slowModeInterval user),
        (Target.room roomId,
         OutEvent.viewerCountUpdated roomData'.room.viewerCount)])

/-- `send_message` handler.  `now` stands for `Date.now()` (the source reads
the clock up to three times inside one synchronous handler run; the
event-loop executes the handler in one tick, so a single value models all
three reads).  `Math.ceil((interval - timeSince) / 1000)` on the positive
integer `interval - timeSince` is `(interval - timeSince + 999) / 1000`. -/
def sendMessage (db : Db) (socketId : String) (now : Nat)
    (roomId text : String) (type : MsgType) (username : String) :
    Db × List Effect :=
  match getRoomData db roomId with
  | none => (db, [])
  | some roomData =>
      match mapGet roomData.users socketId with
      | none => (db, [])
      | some user =>
          -- VALIDATION 1: banned users cannot send
          if user.banned = true ∨ memB socketId roomData.bannedUsers = true then
            (db, [(Target.requester,
                   OutEvent.errorEvent "You are banned from chatting")])
          -- VALIDATION 2: only hosts can send announcements
          else if type = MsgType.ANNOUNCEMENT ∧ user.role ≠ Role.host then
            (db, [(Target.requester,
                   OutEvent.errorEvent "Only the host can send announcements")])
          else
            -- VALIDATION 3: slow mode for non-hosts; on pass, the branch also
            -- records `user.lastMessageTime = now`
            let timeSince := now - user.lastMessageTime
            if roomData.slowModeEnabled = true ∧
                user.role ≠ Role.host ∧ 0 < user.lastMessageTime ∧
                timeSince < roomData.slowModeInterval then
              let waitTime := (roomData.slowModeInterval - timeSince + 999) / 1000
              (db, [(Target.requester,
                     OutEvent.errorEvent
                       ("Slow mode: wait " ++ toString waitTime ++
                        "s before sending another message"))])
            else
              let db' :=
                if roomData.slowModeEnabled = true ∧ user.role ≠ Role.host then
                  mapSet db roomId
                    { roomData with
                      users := mapSet roomData.users socketId
                        { user with lastMessageTime := now } }
                else db
              let message : Message :=
                { id := socketId ++ "-" ++ toString now,
                  userId := socketId,
                  username := user.username,
                  text := text.take 500,
                  type, timestamp := now, deleted := false, reactions := [] }
              (addMessage db' roomId message,
               [(Target.room roomId, OutEvent.newMessage message)])

/-- `Array.prototype.find` on the message array by message id. -/
def findMsg : List Message → String → Option Message
  | [], _ => none
  | m :: ms, mid => if m.id = mid then some m else findMsg ms mid

/-- Mutating the (first) message found by `Array.prototype.find`: replace the
first message with the given id. -/
def updateFirst : List Message → String → (Message → Message) → List Message
  | [], _, _ => []
  | m :: ms, mid, f =>
      if m.id = mid then f m :: ms else m :: updateFirst ms mid f

/-- `delete_message` handler (host only; soft delete). -/
def deleteMessage (db : Db) (socketId roomId messageId : String) :
    Db × List Effect :=
  match getRoomData db roomId with
  | none => (db, [])
  | some roomData =>
      let user := mapGet roomData.users socketId
      if (user.map User.role) ≠ some Role.host then
        (db, [(Target.requester,
               OutEvent.errorEvent "Only the host can delete messages")])
      else
        match findMsg roomData.messages messageId with
        | some _ =>
            (mapSet db roomId
              { roomData with
                messages := updateFirst roomData.messages messageId
                  (fun m => { m with deleted := true }) },
             [(Target.room roomId, OutEvent.messageDeleted messageId)])
        | none => (db, [])

/-- `ban_user` handler (host only). -/
def banUser (db : Db) (socketId roomId userId : String) : Db × List Effect :=
  match getRoomData db roomId with
  | none => (db, [])
  | some roomData =>
      let user := mapGet roomData.users socketId
      if (user.map User.role) ≠ some Role.host then
        (db, [(Target.requester,
               OutEvent.errorEvent "Only the host can ban users")])
      else
        let bannedUsers := setAdd roomData.bannedUsers userId
        let users :=
          match mapGet roomData.users userId with
          | some bannedUser =>
              mapSet roomData.users userId { bannedUser with banned := true }
          | none => roomData.users
        (mapSet db roomId { roomData with bannedUsers := bannedUsers, users := users },
         [(Target.room roomId, OutEvent.userBanned userId)])

/-- `clear_all_messages` handler (host only). -/
def clearAllMessages (db : Db) (socketId roomId : String) : Db × List Effect :=
  match getRoomData db roomId with
  | none => (db, [])
  | some roomData =>
      let user := mapGet roomData.users socketId
      if (user.map User.role) ≠ some Role.host then
        (db, [(Target.requester,
               OutEvent.errorEvent "Only the host can clear messages")])
      else
        (mapSet db roomId { roomData with messages := [] },
         [(Target.room roomId, OutEvent.messagesCleared)])

/-- `toggle_slow_mode` handler (host only). -/
def toggleSlowMode (db : Db) (socketId roomId : String) (enabled : Bool) :
    Db × List Effect :=
  match getRoomData db roomId with
  | none => (db, [])
  | some roomData =>
      let user := mapGet roomData.users socketId
      if (user.map User.role) ≠ some Role.host then
        (db, [(Target.requester,
               OutEvent.errorEvent "Only the host can toggle slow mode")])
      else
        (mapSet db roomId { roomData with slowModeEnabled := enabled },
         [(Target.room roomId,
           OutEvent.slowModeChanged enabled roomData.slowModeInterval)])

/-- `leave_room` handler. -/
def leaveRoom (db : Db) (socketId roomId : String) : Db × List Effect :=
  match getRoomData db roomId with
  | none => (db, [])
  | some roomData =>
      let users := mapDelete roomData.users socketId
      let roomData' : RoomData :=
        { roomData with
          users := users
          room := { roomData.room with viewerCount := users.length } }
      (mapSet db roomId roomData',
       [(Target.room roomId,
         OutEvent.viewerCountUpdated roomData'.room.viewerCount)])

/-- The reaction toggle that `add_reaction` performs on one message's
reaction map: add the user to the emoji's array if absent (creating the key),
remove them if present (`splice` at `indexOf`, i.e. erase the first
occurrence), and drop the key when the array becomes empty. -/
def reactToggle (reactions : List (String × List String))
    (emoji socketId : String) : List (String × List String) :=
  let arr := (mapGet reactions emoji).getD []
  if memB socketId arr then
    let arr' := arr.erase socketId
    if arr'.isEmpty then mapDelete reactions emoji
    else mapSet reactions emoji arr'
  else mapSet reactions emoji (arr ++ [socketId])

/-- `add_reaction` handler. -/
def addReaction (db : Db) (socketId roomId messageId emoji : String) :
    Db × List Effect :=
  match getRoomData db roomId with
  | none => (db, [])
  | some roomData =>
      match findMsg roomData.messages messageId with
      | none => (db, [])
      | some message =>
          let reactions := reactToggle message.reactions emoji socketId
          (mapSet db roomId
            { roomData with
              messages := updateFirst roomData.messages messageId
                (fun m => { m with reactions }) },
           [(Target.room roomId,
             OutEvent.reactionUpdated messageId reactions)])

/-- `disconnect` handler: remove the user from every room whose roster
contains them (`db.rooms.forEach`), updating viewer counts. -/
def disconnectCleanup : Db → String → Db × List Effect
  | [], _ => ([], [])
  | (rid, roomData) :: rest, socketId =>
      let tailResult := disconnectCleanup rest socketId
      if (mapGet roomData.users socketId).isSome then
        let users := mapDelete roomData.users socketId
        let roomData' : RoomData :=
          { roomData with
            users := users
            room := { roomData.room with viewerCount := users.length } }
        ((rid, roomData') :: tailResult.1,
         (Target.room rid, OutEvent.viewerCountUpdated users.length)
           :: tailResult.2)
      else ((rid, roomData) :: tailResult.1, tailResult.2)

/-- A sequence of accepted sends, seen at the log level: the successive
`addMessage` calls they perform on one room. -/
def addMessages (db : Db) (rid : String) (ms : List Message) : Db :=
  ms.foldl (fun d m => addMessage d rid m) db

/-- A concrete 301-message sequence for the C1 witness. -/
def msW : List Message :=
  (List.range (MAX_MESSAGES + 1)).map (fun i =>
    { id := "m", userId := "u", username := "alice", text := "hi",
      type := MsgType.CHAT, timestamp := i, deleted := false,
      reactions := [] })

/-- A one-room database with an empty log for the C1 witness. -/
def rdW : RoomData :=
  { room := { id := "r", name := "n", productName := "p",
              productDescription := "d", shopifyUrl := "s", hostId := "h",
              hostName := "hn", videoUrl := "v", createdAt := 1,
              viewerCount := 0, messageCount := 0 },
    messages := [], users := [], bannedUsers := [],
    slowModeEnabled := false, slowModeInterval := 10000 }

/-- The message record a successful send constructs. -/
def mkMessage (socketId : String) (now : Nat) (text : String) (ty : MsgType)
    (senderName : String) : Message :=
  { id := socketId ++ "-" ++ toString now, userId := socketId,
    username := senderName, text := text.take 500, type := ty,
    timestamp := now, deleted := false, reactions := [] }

/-- A one-room database with a banned viewer `v` and host `h`, for
witnesses. -/
def rdBanW : RoomData :=
  { rdW with
    users := [("h", ⟨"h", "Host", false, 0, Role.host⟩),
              ("v", ⟨"v", "Vic", true, 0, Role.viewer⟩)],
    bannedUsers := ["v"] }

/-- The state reached by: create room `r` (host connection `h`), `h` joins as
host, `h` bans `h` (the handler lets a host ban any user id, including the
host's own). -/
def dbBannedHost : Db :=
  (banUser
    (joinRoom (createRoomHandler [] "h" "r" "N" "P" "D" "" "HN" "" 1).1
      "h" "r" "Host" true).1
    "h" "r" "h").1

/-- The state reached by: create room `r` (host connection `h`), viewer `v`
joins; slow mode is off (its default). -/
def dbViewerNoSlow : Db :=
  (joinRoom (createRoomHandler [] "h" "r" "N" "P" "D" "" "HN" "" 1).1
    "v" "r" "alice" false).1

/-- The single room record inside `dbViewerNoSlow`. -/
def rdViewerNoSlow : RoomData :=
  { room := { id := "r", name := "N", productName := "P",
              productDescription := "D",
              shopifyUrl := "https://www.shopify.com", hostId := "h",
              hostName := "HN",
              videoUrl := "https://test-streams.mux.dev/x36xhzz/x36xhzz.m3u8",
              createdAt := 1, viewerCount := 1, messageCount := 0 },
    messages := [], users := [("v", ⟨"v", "alice", false, 0, Role.viewer⟩)],
    bannedUsers := [], slowModeEnabled := false, slowModeInterval := 10000 }

/-- A slow-mode room with a viewer whose last accepted send was at time
2000, for the C2 and C6 witnesses. -/
def rdSlowW : RoomData :=
  { rdW with
    users := [("v", ⟨"v", "Vic", false, 2000, Role.viewer⟩)],
    slowModeEnabled := true }

/-- The reaction state of a message viewed at the spec's data-model level
("mapping from reaction symbol to the set of reacting connection ids"):
whether `uid` is recorded as having reacted with `em`. -/
def reactedBy (reactions : List (String × List String))
    (em uid : String) : Prop :=
  uid ∈ (mapGet reactions em).getD []

/-- A message carrying reactions, and a room containing it, for the C7
witness: `a` is the sole "like" reactor and `b` the sole "wow" reactor. -/
def msgReactW : Message :=
  ⟨"m1", "u", "alice", "hi", MsgType.CHAT, 1, false,
   [("like", ["a"]), ("wow", ["b"])]⟩

def rdReactW : RoomData := { rdW with messages := [msgReactW] }

/-- One inbound protocol event, with the transport-supplied data (socket id,
generated room id, clock reading) made explicit. -/
inductive Op where
  | getRooms
  | createRoom (socketId roomId name productName productDescription
      shopifyUrl hostName videoUrl : String) (now : Nat)
  | joinRoom (socketId roomId username : String) (isHost : Bool)
  | sendMessage (socketId : String) (now : Nat) (roomId text : String)
      (type : MsgType) (username : String)
  | deleteMessage (socketId roomId messageId : String)
  | banUser (socketId roomId userId : String)
  | clearAllMessages (socketId roomId : String)
  | toggleSlowMode (socketId roomId : String) (enabled : Bool)
  | leaveRoom (socketId roomId : String)
  | addReaction (socketId roomId messageId emoji : String)
  | disconnect (socketId : String)

/-- Dispatch of one inbound event to its handler. -/
def step (db : Db) : Op → Db × List Effect
  | Op.getRooms => getRoomsHandler db
  | Op.createRoom s r n pn pd su hn vu now =>
      createRoomHandler db s r n pn pd su hn vu now
  | Op.joinRoom s r u ih => joinRoom db s r u ih
  | Op.sendMessage s now r t ty un => sendMessage db s now r t ty un
  | Op.deleteMessage s r m => deleteMessage db s r m
  | Op.banUser s r u => banUser db s r u
  | Op.clearAllMessages s r => clearAllMessages db s r
  | Op.toggleSlowMode s r e => toggleSlowMode db s r e
  | Op.leaveRoom s r => leaveRoom db s r
  | Op.addReaction s r m e => addReaction db s r m e
  | Op.disconnect s => disconnectCleanup db s

/-- Run a sequence of inbound events. -/
def runOps (db : Db) : List Op → Db
  | [] => db
  | op :: ops => runOps (step db op).1 ops

/-- The generated id of a `create_room` event is fresh (which the
`room-${Date.now()}-${random}` generation scheme is designed to ensure);
every other event carries no generated id. -/
def opFresh (db : Db) : Op → Prop
  | Op.createRoom _ roomId _ _ _ _ _ _ _ => getRoomData db roomId = none
  | _ => True

/-- Freshness of every generated room id along a run. -/
def FreshRun (db : Db) : List Op → Prop
  | [] => True
  | op :: ops => opFresh db op ∧ FreshRun (step db op).1 ops

/-- `db2` keeps every room of `db` and never shrinks any room's ban set. -/
def BanPreserving (db db2 : Db) : Prop :=
  ∀ rid rd, getRoomData db rid = some rd →
    ∃ rd', getRoomData db2 rid = some rd' ∧
      ∀ x ∈ rd.bannedUsers, x ∈ rd'.bannedUsers

/-! ## Theorems -/

@[simp] theorem mapGet_nil {α : Type} (k : String) :
    mapGet ([] : List (String × α)) k = none := rfl

@[simp] theorem mapGet_cons {α : Type} (k' : String) (v : α) (rest) (k) :
    mapGet ((k', v) :: rest) k = if k' = k then some v else mapGet rest k := rfl

theorem mapGet_mapSet_self {α : Type} (m : List (String × α)) (k : String) (v : α) :
    mapGet (mapSet m k v) k = some v := by
  induction m with
  | nil => simp [mapSet]
  | cons p rest ih =>
      obtain ⟨k', v'⟩ := p
      by_cases h : k' = k <;> simp [mapSet, h, ih]

theorem mapGet_mapSet_ne {α : Type} (m : List (String × α)) (k k'' : String) (v : α)
    (h : k'' ≠ k) : mapGet (mapSet m k v) k'' = mapGet m k'' := by
  induction m with
  | nil => simp [mapSet, Ne.symm h]
  | cons p rest ih =>
      obtain ⟨k', v'⟩ := p
      by_cases hk : k' = k
      · subst hk
        simp [mapSet, Ne.symm h]
      · simp [mapSet, hk, ih]

theorem mapGet_mapDelete_ne {α : Type} (m : List (String × α)) (k k'' : String)
    (h : k'' ≠ k) : mapGet (mapDelete m k) k'' = mapGet m k'' := by
  induction m with
  | nil => simp [mapDelete]
  | cons p rest ih =>
      obtain ⟨k', v'⟩ := p
      by_cases hk : k' = k
      · subst hk
        simp [mapDelete, Ne.symm h]
      · simp [mapDelete, hk, ih]

@[simp] theorem mapSet_nil {α : Type} (k : String) (v : α) :
    mapSet ([] : List (String × α)) k v = [(k, v)] := rfl

theorem mapSet_cons {α : Type} (k' : String) (v' : α) (rest) (k) (v) :
    mapSet ((k', v') :: rest) k v =
      if k' = k then (k, v) :: rest else (k', v') :: mapSet rest k v := rfl

theorem mapDelete_cons {α : Type} (k' : String) (v' : α) (rest) (k) :
    mapDelete ((k', v') :: rest) k =
      if k' = k then rest else (k', v') :: mapDelete rest k := rfl

theorem mem_keys_mapSet {α : Type} (m : List (String × α)) (k x : String) (v : α) :
    x ∈ keys (mapSet m k v) ↔ x ∈ keys m ∨ x = k := by
  induction m with
  | nil => simp [keys]
  | cons p rest ih =>
      obtain ⟨k', v'⟩ := p
      by_cases hk : k' = k
      · subst hk
        rw [mapSet_cons, if_pos rfl]
        simp only [keys, List.map_cons, List.mem_cons]
        tauto
      · rw [mapSet_cons, if_neg hk]
        simp only [keys, List.map_cons, List.mem_cons] at *
        tauto

theorem keys_mapSet_nodup {α : Type} (m : List (String × α)) (k : String) (v : α)
    (hnd : (keys m).Nodup) : (keys (mapSet m k v)).Nodup := by
  induction m with
  | nil => simp [keys]
  | cons p rest ih =>
      obtain ⟨k', v'⟩ := p
      simp only [keys, List.map_cons, List.nodup_cons] at hnd
      by_cases hk : k' = k
      · subst hk
        rw [mapSet_cons, if_pos rfl]
        simp only [keys, List.map_cons, List.nodup_cons]
        exact hnd
      · rw [mapSet_cons, if_neg hk]
        simp only [keys, List.map_cons, List.nodup_cons]
        refine ⟨fun hmem => ?_, by have := ih hnd.2; simpa [keys] using this⟩
        rw [show List.map Prod.fst (mapSet rest k v) = keys (mapSet rest k v) from rfl,
          mem_keys_mapSet] at hmem
        rcases hmem with h1 | h1
        · exact hnd.1 h1
        · exact hk h1

theorem mapGet_eq_none_of_not_mem_keys {α : Type} (m : List (String × α)) (k : String)
    (h : k ∉ keys m) : mapGet m k = none := by
  induction m with
  | nil => rfl
  | cons p rest ih =>
      obtain ⟨k', v'⟩ := p
      simp only [keys, List.map_cons, List.mem_cons] at h
      push_neg at h
      simp [mapGet_cons, if_neg (Ne.symm h.1), ih h.2]

theorem mapGet_mapDelete_self {α : Type} (m : List (String × α)) (k : String)
    (hnd : (keys m).Nodup) : mapGet (mapDelete m k) k = none := by
  induction m with
  | nil => simp [mapDelete]
  | cons p rest ih =>
      obtain ⟨k', v'⟩ := p
      simp only [keys, List.map_cons, List.nodup_cons] at hnd
      by_cases hk : k' = k
      · rw [mapDelete_cons, if_pos hk]
        exact mapGet_eq_none_of_not_mem_keys rest k (hk ▸ hnd.1)
      · rw [mapDelete_cons, if_neg hk]
        simp only [mapGet_cons, if_neg hk]
        exact ih hnd.2

@[simp] theorem memB_iff (x : String) (s : List String) : memB x s = true ↔ x ∈ s := by
  induction s with
  | nil => simp [memB]
  | cons y ys ih =>
      by_cases h : y = x
      · subst h; simp [memB]
      · simp [memB, h, ih, Ne.symm h]

theorem mem_setAdd_of_mem (s : List String) (x y : String) (h : x ∈ s) :
    x ∈ setAdd s y := by
  unfold setAdd
  by_cases hm : memB y s <;> simp [hm, h]

theorem appendCapped_eq (L : List Message) (m : Message) :
    appendCapped L m =
      if MAX_MESSAGES < L.length + 1 then
        (L ++ [m]).drop (L.length + 1 - MAX_MESSAGES)
      else L ++ [m] := by
  simp [appendCapped]

theorem length_appendCapped (L : List Message) (m : Message) :
    (appendCapped L m).length = min (L.length + 1) MAX_MESSAGES := by
  rw [appendCapped_eq]
  by_cases h : MAX_MESSAGES < L.length + 1
  · rw [if_pos h]
    simp only [List.length_drop, List.length_append, List.length_cons,
      List.length_nil]
    omega
  · rw [if_neg h]
    simp only [List.length_append, List.length_cons, List.length_nil]
    omega

/-- Folding capped pushes from any log within capacity keeps exactly the
newest `MAX_MESSAGES` entries of the whole sequence, in order. -/
theorem foldl_appendCapped (ms : List Message) :
    ∀ L : List Message, L.length ≤ MAX_MESSAGES →
      ms.foldl appendCapped L =
        (L ++ ms).drop ((L ++ ms).length - MAX_MESSAGES) := by
  induction ms with
  | nil =>
      intro L hL
      simp only [List.foldl_nil, List.append_nil]
      rw [Nat.sub_eq_zero_of_le hL, List.drop_zero]
  | cons m ms ih =>
      intro L hL
      rw [List.foldl_cons, ih (appendCapped L m)
        (by rw [length_appendCapped]; omega)]
      have hsplit : L ++ m :: ms = (L ++ [m]) ++ ms := by simp
      rw [hsplit, appendCapped_eq]
      by_cases h : MAX_MESSAGES < L.length + 1
      · rw [if_pos h]
        have hd1 : L.length + 1 - MAX_MESSAGES = 1 := by omega
        rw [hd1, ← List.drop_append_of_le_length
          (show (1:Nat) ≤ (L ++ [m]).length by simp), List.drop_drop]
        have hidx : 1 + ((List.drop 1 (L ++ [m] ++ ms)).length - MAX_MESSAGES) =
            ((L ++ [m]) ++ ms).length - MAX_MESSAGES := by
          simp only [List.length_append, List.length_drop, List.length_cons,
            List.length_nil]
          omega
        rw [hidx]
      · rw [if_neg h]

theorem addMessage_self (db : Db) (rid : String) (m : Message) (rd : RoomData)
    (h : getRoomData db rid = some rd) :
    getRoomData (addMessage db rid m) rid =
      some { rd with
             messages := appendCapped rd.messages m
             room := { rd.room with
                       messageCount := rd.room.messageCount + 1 } } := by
  unfold addMessage getRoomData at *
  rw [h]
  exact mapGet_mapSet_self db rid _

theorem addMessages_messages (ms : List Message) :
    ∀ (db : Db) (rid : String) (rd : RoomData),
      getRoomData db rid = some rd →
      ∃ rd', getRoomData (addMessages db rid ms) rid = some rd' ∧
        rd'.messages = ms.foldl appendCapped rd.messages := by
  induction ms with
  | nil => exact fun db rid rd h => ⟨rd, h, rfl⟩
  | cons m ms ih =>
      intro db rid rd h
      obtain ⟨rd', h2, h3⟩ := ih (addMessage db rid m) rid _
        (addMessage_self db rid m rd h)
      exact ⟨rd', h2, by rw [h3]; rfl⟩

/-- C1: for every room and sequence of accepted sends, the message log stays
within the fixed capacity `MAX_MESSAGES = 300` after each send; and after
`capacity + 1` accepted sends into an empty log, the log holds exactly the
`capacity` newest messages in their original relative order, with the oldest
message evicted (strict FIFO). -/
theorem log_capacity_fifo :
    (∀ (db : Db) (rid : String) (m : Message) (rd rd' : RoomData),
        getRoomData db rid = some rd →
        rd.messages.length ≤ MAX_MESSAGES →
        getRoomData (addMessage db rid m) rid = some rd' →
        rd'.messages.length ≤ MAX_MESSAGES) ∧
    (∀ (db : Db) (rid : String) (rd : RoomData) (ms : List Message),
        getRoomData db rid = some rd → rd.messages = [] →
        ms.length = MAX_MESSAGES + 1 →
        ∃ rd', getRoomData (addMessages db rid ms) rid = some rd' ∧
          rd'.messages = ms.drop 1 ∧
          (ms.Nodup → ∀ m0, ms.head? = some m0 → m0 ∉ rd'.messages)) := by
  constructor
  · intro db rid m rd rd' h hlen h'
    rw [addMessage_self db rid m rd h] at h'
    injection h' with h'
    rw [← h']
    simp only [length_appendCapped]
    omega
  · intro db rid rd ms h hemp hlen
    obtain ⟨rd', h2, h3⟩ := addMessages_messages ms db rid rd h
    rw [hemp, foldl_appendCapped ms [] (by simp [MAX_MESSAGES]),
      List.nil_append, hlen, Nat.add_sub_cancel_left] at h3
    refine ⟨rd', h2, h3, fun hnd m0 hm0 => ?_⟩
    cases ms with
    | nil => simp at hlen
    | cons mh mt =>
        simp only [List.head?_cons, Option.some.injEq] at hm0
        subst hm0
        rw [h3]
        simp only [List.drop_succ_cons, List.drop_zero]
        exact (List.nodup_cons.mp hnd).1

theorem log_capacity_fifo_witness :
    msW.length = MAX_MESSAGES + 1 ∧
    (∃ rd', getRoomData (addMessages [("r", rdW)] "r" msW) "r" = some rd' ∧
      rd'.messages = msW.drop 1 ∧
      (msW.Nodup → ∀ m0, msW.head? = some m0 → m0 ∉ rd'.messages)) :=
  ⟨by simp [msW],
   log_capacity_fifo.2 [("r", rdW)] "r" rdW msW rfl rfl (by simp [msW])⟩

/-- C10: a send whose connection id has no participant in the target room's
roster is a silent no-op — no error, no broadcast, state unchanged. -/
theorem send_without_participant_noop (db : Db) (sid : String) (now : Nat)
    (rid text : String) (ty : MsgType) (un : String) (rd : RoomData)
    (h : getRoomData db rid = some rd)
    (hu : mapGet rd.users sid = none) :
    sendMessage db sid now rid text ty un = (db, []) := by
  simp only [sendMessage, h, hu]

theorem send_without_participant_noop_witness :
    getRoomData [("r", rdW)] "r" = some rdW ∧
    mapGet rdW.users "v" = none ∧
    sendMessage [("r", rdW)] "v" 5 "r" "hi" MsgType.CHAT "alice" =
      ([("r", rdW)], []) :=
  ⟨rfl, rfl,
   send_without_participant_noop [("r", rdW)] "v" 5 "r" "hi" MsgType.CHAT
     "alice" rdW rfl rfl⟩

/-- C4: a banned participant's send always fails with the ban error, appends
nothing, and leaves the whole database unchanged, regardless of message
kind. -/
theorem banned_send_rejected (db : Db) (sid : String) (now : Nat)
    (rid text : String) (ty : MsgType) (un : String) (rd : RoomData)
    (u : User)
    (h : getRoomData db rid = some rd)
    (hu : mapGet rd.users sid = some u)
    (hb : u.banned = true) :
    sendMessage db sid now rid text ty un =
      (db, [(Target.requester,
             OutEvent.errorEvent "You are banned from chatting")]) := by
  simp only [sendMessage, h, hu]
  rw [if_pos (Or.inl hb)]

theorem banned_send_rejected_witness :
    getRoomData [("r", rdBanW)] "r" = some rdBanW ∧
    mapGet rdBanW.users "v" = some ⟨"v", "Vic", true, 0, Role.viewer⟩ ∧
    sendMessage [("r", rdBanW)] "v" 5 "r" "hi" MsgType.ANNOUNCEMENT "Vic" =
      ([("r", rdBanW)],
       [(Target.requester,
         OutEvent.errorEvent "You are banned from chatting")]) :=
  ⟨rfl, rfl,
   banned_send_rejected [("r", rdBanW)] "v" 5 "r" "hi" MsgType.ANNOUNCEMENT
     "Vic" rdBanW ⟨"v", "Vic", true, 0, Role.viewer⟩ rfl rfl rfl⟩

/-- C5 counterexample: a participant whose role is host, reached through the
protocol itself (self-ban), whose announcement send does not succeed but
fails with the ban error — so a host's announcement send does not *always*
succeed. -/
theorem host_announcement_can_fail :
    (getRoomData dbBannedHost "r").map (fun rd => mapGet rd.users "h") =
      some (some ⟨"h", "Host", true, 0, Role.host⟩) ∧
    sendMessage dbBannedHost "h" 5 "r" "hello" MsgType.ANNOUNCEMENT "Host" =
      (dbBannedHost,
       [(Target.requester,
         OutEvent.errorEvent "You are banned from chatting")]) :=
  ⟨rfl, rfl⟩

/-- C5 (amended): a non-host's announcement send always fails with a
`Forbidden`-class error (the ban error or the announcement-restriction
error) and changes nothing; a *non-banned* host's send of any kind always
succeeds, and slow-mode rate limiting never applies to a host (the success
holds for every slow-mode state and last-send timestamp). -/
theorem announcement_host_only (db : Db) (sid : String) (now : Nat)
    (rid text un : String) (rd : RoomData) (u : User)
    (h : getRoomData db rid = some rd)
    (hu : mapGet rd.users sid = some u) :
    (u.role ≠ Role.host →
      (sendMessage db sid now rid text MsgType.ANNOUNCEMENT un).1 = db ∧
      ((sendMessage db sid now rid text MsgType.ANNOUNCEMENT un).2 =
        [(Target.requester,
          OutEvent.errorEvent "You are banned from chatting")] ∨
       (sendMessage db sid now rid text MsgType.ANNOUNCEMENT un).2 =
        [(Target.requester,
          OutEvent.errorEvent "Only the host can send announcements")])) ∧
    (u.role = Role.host → u.banned = false →
      memB sid rd.bannedUsers = false →
      ∀ ty, sendMessage db sid now rid text ty un =
        (addMessage db rid (mkMessage sid now text ty u.username),
         [(Target.room rid,
           OutEvent.newMessage (mkMessage sid now text ty u.username))])) := by
  constructor
  · intro hr
    by_cases hban : u.banned = true ∨ memB sid rd.bannedUsers = true
    · simp only [sendMessage, h, hu]
      rw [if_pos hban]
      exact ⟨rfl, Or.inl rfl⟩
    · simp only [sendMessage, h, hu]
      rw [if_neg hban, if_pos ⟨trivial, hr⟩]
      exact ⟨rfl, Or.inr rfl⟩
  · intro hrole hb hbs ty
    simp only [sendMessage, h, hu]
    rw [if_neg (by simp [hb, hbs])]
    rw [if_neg (fun hc => hc.2 hrole)]
    rw [if_neg (fun hc => hc.2.1 hrole)]
    rw [if_neg (fun hc => hc.2 hrole)]
    rfl

theorem announcement_host_only_witness :
    ((sendMessage [("r", rdBanW)] "v" 5 "r" "x" MsgType.ANNOUNCEMENT "Vic").1 =
       [("r", rdBanW)] ∧
     ((sendMessage [("r", rdBanW)] "v" 5 "r" "x" MsgType.ANNOUNCEMENT "Vic").2 =
        [(Target.requester,
          OutEvent.errorEvent "You are banned from chatting")] ∨
      (sendMessage [("r", rdBanW)] "v" 5 "r" "x" MsgType.ANNOUNCEMENT "Vic").2 =
        [(Target.requester,
          OutEvent.errorEvent "Only the host can send announcements")])) ∧
    sendMessage [("r", rdBanW)] "h" 5 "r" "x" MsgType.CHAT "Host" =
      (addMessage [("r", rdBanW)] "r" (mkMessage "h" 5 "x" MsgType.CHAT "Host"),
       [(Target.room "r",
         OutEvent.newMessage (mkMessage "h" 5 "x" MsgType.CHAT "Host"))]) :=
  ⟨(announcement_host_only [("r", rdBanW)] "v" 5 "r" "x" "Vic" rdBanW
      ⟨"v", "Vic", true, 0, Role.viewer⟩ rfl rfl).1 (by decide),
   ((announcement_host_only [("r", rdBanW)] "h" 5 "r" "x" "Host" rdBanW
      ⟨"h", "Host", false, 0, Role.host⟩ rfl rfl).2 rfl rfl rfl) MsgType.CHAT⟩

/-- C6 counterexample: with slow mode disabled, a viewer's send at time 5
succeeds (the new message is broadcast) yet the viewer's last-message
timestamp remains 0 — the code only updates the timestamp inside the
slow-mode branch, so a successful viewer send does not always update it. -/
theorem viewer_timestamp_not_always_updated :
    (sendMessage dbViewerNoSlow "v" 5 "r" "hi" MsgType.CHAT "alice").2 =
      [(Target.room "r",
        OutEvent.newMessage (mkMessage "v" 5 "hi" MsgType.CHAT "alice"))] ∧
    (getRoomData (sendMessage dbViewerNoSlow "v" 5 "r" "hi"
        MsgType.CHAT "alice").1 "r").map (fun rd => mapGet rd.users "v") =
      some (some ⟨"v", "alice", false, 0, Role.viewer⟩) :=
  ⟨rfl, rfl⟩

/-- C6 (amended): a successful viewer send updates the sender's last-message
timestamp to the send time exactly when slow mode is enabled; with slow mode
disabled the timestamp is left unchanged; and a successful host send never
updates it (under any slow-mode state). -/
theorem last_message_time_update (db : Db) (sid : String) (now : Nat)
    (rid text un : String) (rd : RoomData) (u : User)
    (h : getRoomData db rid = some rd)
    (hu : mapGet rd.users sid = some u)
    (hb : u.banned = false)
    (hbs : memB sid rd.bannedUsers = false) :
    (rd.slowModeEnabled = true → u.role = Role.viewer →
      (u.lastMessageTime = 0 ∨
        rd.slowModeInterval ≤ now - u.lastMessageTime) →
      ∃ rd', getRoomData (sendMessage db sid now rid text
          MsgType.CHAT un).1 rid = some rd' ∧
        mapGet rd'.users sid = some { u with lastMessageTime := now }) ∧
    (rd.slowModeEnabled = false →
      ∃ rd', getRoomData (sendMessage db sid now rid text
          MsgType.CHAT un).1 rid = some rd' ∧
        mapGet rd'.users sid = some u) ∧
    (u.role = Role.host → ∀ ty,
      ∃ rd', getRoomData (sendMessage db sid now rid text ty un).1 rid =
          some rd' ∧
        mapGet rd'.users sid = some u) := by
  refine ⟨?_, ?_, ?_⟩
  · intro hslow hrole hpass
    simp only [sendMessage, h, hu]
    rw [if_neg (by simp [hb, hbs])]
    rw [if_neg (fun hc => by cases hc.1)]
    rw [if_neg (fun hc => by
      rcases hpass with h0 | hge
      · rw [h0] at hc; exact absurd hc.2.2.1 (by omega)
      · exact absurd hc.2.2.2 (by omega))]
    rw [if_pos ⟨hslow, by rw [hrole]; exact fun hcon => by cases hcon⟩]
    refine ⟨_, addMessage_self _ rid _ _ (mapGet_mapSet_self db rid _), ?_⟩
    exact mapGet_mapSet_self rd.users sid _
  · intro hoff
    simp only [sendMessage, h, hu]
    rw [if_neg (by simp [hb, hbs])]
    rw [if_neg (fun hc => by cases hc.1)]
    rw [if_neg (fun hc => by rw [hoff] at hc; cases hc.1)]
    rw [if_neg (fun hc => by rw [hoff] at hc; cases hc.1)]
    exact ⟨_, addMessage_self db rid _ rd h, hu⟩
  · intro hrole ty
    simp only [sendMessage, h, hu]
    rw [if_neg (by simp [hb, hbs])]
    rw [if_neg (fun hc => hc.2 hrole)]
    rw [if_neg (fun hc => hc.2.1 hrole)]
    rw [if_neg (fun hc => hc.2 hrole)]
    exact ⟨_, addMessage_self db rid _ rd h, hu⟩

theorem last_message_time_update_witness :
    (∃ rd', getRoomData (sendMessage [("r", rdSlowW)] "v" 12000 "r" "hi"
        MsgType.CHAT "Vic").1 "r" = some rd' ∧
      mapGet rd'.users "v" =
        some ⟨"v", "Vic", false, 12000, Role.viewer⟩) ∧
    (∃ rd', getRoomData (sendMessage dbViewerNoSlow "v" 5 "r" "hi"
        MsgType.CHAT "alice").1 "r" = some rd' ∧
      mapGet rd'.users "v" = some ⟨"v", "alice", false, 0, Role.viewer⟩) ∧
    (∃ rd', getRoomData (sendMessage [("r", rdBanW)] "h" 5 "r" "hi"
        MsgType.CHAT "Host").1 "r" = some rd' ∧
      mapGet rd'.users "h" = some ⟨"h", "Host", false, 0, Role.host⟩) :=
  ⟨(last_message_time_update [("r", rdSlowW)] "v" 12000 "r" "hi" "Vic"
      rdSlowW ⟨"v", "Vic", false, 2000, Role.viewer⟩ rfl rfl rfl rfl).1
      rfl rfl (Or.inr (by decide)),
   (last_message_time_update dbViewerNoSlow "v" 5 "r" "hi" "alice"
      rdViewerNoSlow ⟨"v", "alice", false, 0, Role.viewer⟩
      rfl rfl rfl rfl).2.1 rfl,
   ((last_message_time_update [("r", rdBanW)] "h" 5 "r" "hi" "Host"
      rdBanW ⟨"h", "Host", false, 0, Role.host⟩ rfl rfl rfl rfl).2.2
      rfl) MsgType.CHAT⟩

/-- C2: with slow mode enabled, for a viewer whose last accepted send is
recorded at a (positive) clock value `u.lastMessageTime`: a send strictly
less than the configured interval later fails with the slow-mode error
carrying the remaining wait in seconds and leaves the entire database — in
particular the last-send timestamp — unchanged, while a send at exactly the
interval or later succeeds (the message is constructed, appended via
`addMessage`, and broadcast, with the timestamp advanced to the send time).
A first accepted send in slow mode records the (positive) current clock, so
the hypotheses describe every viewer state after an accepted send. -/
theorem slow_mode_rate_limit (db : Db) (sid : String) (t2 : Nat)
    (rid text un : String) (rd : RoomData) (u : User)
    (h : getRoomData db rid = some rd)
    (hu : mapGet rd.users sid = some u)
    (hslow : rd.slowModeEnabled = true)
    (hrole : u.role = Role.viewer)
    (hb : u.banned = false)
    (hbs : memB sid rd.bannedUsers = false)
    (hpos : 0 < u.lastMessageTime)
    (hle : u.lastMessageTime ≤ t2) :
    (t2 - u.lastMessageTime < rd.slowModeInterval →
      sendMessage db sid t2 rid text MsgType.CHAT un =
        (db, [(Target.requester, OutEvent.errorEvent
          ("Slow mode: wait " ++
           toString ((rd.slowModeInterval - (t2 - u.lastMessageTime) + 999)
             / 1000) ++
           "s before sending another message"))])) ∧
    (u.lastMessageTime + rd.slowModeInterval ≤ t2 →
      sendMessage db sid t2 rid text MsgType.CHAT un =
        (addMessage
          (mapSet db rid
            { rd with users := mapSet rd.users sid ({ u with lastMessageTime := t2 } : User) })
          rid (mkMessage sid t2 text MsgType.CHAT u.username),
         [(Target.room rid,
           OutEvent.newMessage (mkMessage sid t2 text MsgType.CHAT
             u.username))])) := by
  constructor
  · intro hlt
    simp only [sendMessage, h, hu]
    rw [if_neg (by simp [hb, hbs])]
    rw [if_neg (fun hc => by cases hc.1)]
    rw [if_pos ⟨hslow, (by rw [hrole]; decide), hpos, hlt⟩]
  · intro hafter
    simp only [sendMessage, h, hu]
    rw [if_neg (by simp [hb, hbs])]
    rw [if_neg (fun hc => by cases hc.1)]
    rw [if_neg (fun hc => by exact absurd hc.2.2.2 (by omega))]
    rw [if_pos ⟨hslow, by rw [hrole]; exact fun hcon => by cases hcon⟩]
    rfl

theorem slow_mode_rate_limit_witness :
    (sendMessage [("r", rdSlowW)] "v" 7000 "r" "hi" MsgType.CHAT "Vic" =
      ([("r", rdSlowW)],
       [(Target.requester, OutEvent.errorEvent
         "Slow mode: wait 5s before sending another message")])) ∧
    (sendMessage [("r", rdSlowW)] "v" 12000 "r" "hi" MsgType.CHAT "Vic" =
      (addMessage
        (mapSet [("r", rdSlowW)] "r"
          { rdSlowW with users := mapSet rdSlowW.users "v" ⟨"v", "Vic", false, 12000, Role.viewer⟩ })
        "r" (mkMessage "v" 12000 "hi" MsgType.CHAT "Vic"),
       [(Target.room "r",
         OutEvent.newMessage (mkMessage "v" 12000 "hi" MsgType.CHAT
           "Vic"))])) :=
  ⟨(slow_mode_rate_limit [("r", rdSlowW)] "v" 7000 "r" "hi" "Vic" rdSlowW
      ⟨"v", "Vic", false, 2000, Role.viewer⟩ rfl rfl rfl rfl rfl rfl
      (by decide) (by decide)).1 (by decide),
   (slow_mode_rate_limit [("r", rdSlowW)] "v" 12000 "r" "hi" "Vic" rdSlowW
      ⟨"v", "Vic", false, 2000, Role.viewer⟩ rfl rfl rfl rfl rfl rfl
      (by decide) (by decide)).2 (by decide)⟩

/-- C3 counterexample: on a database with no rooms, `join_room` reports
"Room not found" to the requester, but `send_message` on the same missing
room id emits nothing at all — the room-not-found failure is *not*
propagated identically by every operation. -/
theorem room_not_found_not_uniform :
    sendMessage [] "s" 1 "r" "hi" MsgType.CHAT "alice" = ([], []) ∧
    joinRoom [] "s" "r" "alice" false =
      ([], [(Target.requester, OutEvent.errorEvent "Room not found")]) :=
  ⟨rfl, rfl⟩

/-- C3 (amended): when the target room id is absent from the registry,
`join_room` fails by sending the "Room not found" error to the requester,
while every other room-scoped handler (`send_message`, `delete_message`,
`ban_user`, `clear_all_messages`, `toggle_slow_mode`, `leave_room`,
`add_reaction`) silently does nothing: no error, no broadcast, state
unchanged. -/
theorem missing_room_behavior (db : Db) (rid : String)
    (h : getRoomData db rid = none) :
    (∀ sid un isHost, joinRoom db sid rid un isHost =
      (db, [(Target.requester, OutEvent.errorEvent "Room not found")])) ∧
    (∀ sid now text ty un, sendMessage db sid now rid text ty un = (db, [])) ∧
    (∀ sid mid, deleteMessage db sid rid mid = (db, [])) ∧
    (∀ sid uid, banUser db sid rid uid = (db, [])) ∧
    (∀ sid, clearAllMessages db sid rid = (db, [])) ∧
    (∀ sid en, toggleSlowMode db sid rid en = (db, [])) ∧
    (∀ sid, leaveRoom db sid rid = (db, [])) ∧
    (∀ sid mid em, addReaction db sid rid mid em = (db, [])) := by
  refine ⟨?_, ?_, ?_, ?_, ?_, ?_, ?_, ?_⟩ <;> intros <;>
    simp only [joinRoom, sendMessage, deleteMessage, banUser,
      clearAllMessages, toggleSlowMode, leaveRoom, addReaction, h]

theorem missing_room_behavior_witness :
    getRoomData [("r", rdW)] "nope" = none ∧
    joinRoom [("r", rdW)] "s" "nope" "alice" false =
      ([("r", rdW)],
       [(Target.requester, OutEvent.errorEvent "Room not found")]) ∧
    sendMessage [("r", rdW)] "s" 1 "nope" "hi" MsgType.CHAT "alice" =
      ([("r", rdW)], []) ∧
    leaveRoom [("r", rdW)] "s" "nope" = ([("r", rdW)], []) :=
  ⟨rfl,
   (missing_room_behavior [("r", rdW)] "nope" rfl).1 "s" "alice" false,
   (missing_room_behavior [("r", rdW)] "nope" rfl).2.1 "s" 1 "hi"
     MsgType.CHAT "alice",
   (missing_room_behavior [("r", rdW)] "nope" rfl).2.2.2.2.2.2.1 "s"⟩

/-- C8 counterexample: a second `join_room` for a connection that already has
a participant does not preserve the existing participant — it overwrites it
with a freshly created one (here the display name changes from "alice" to
"bob", and any recorded last-message time would reset to 0). -/
theorem join_overwrites_participant :
    (getRoomData dbViewerNoSlow "r").map (fun rd => mapGet rd.users "v") =
      some (some ⟨"v", "alice", false, 0, Role.viewer⟩) ∧
    (getRoomData (joinRoom dbViewerNoSlow "v" "r" "bob" false).1 "r").map
      (fun rd => mapGet rd.users "v") =
      some (some ⟨"v", "bob", false, 0, Role.viewer⟩) ∧
    (⟨"v", "bob", false, 0, Role.viewer⟩ : User) ≠
      ⟨"v", "alice", false, 0, Role.viewer⟩ :=
  ⟨rfl, rfl, by decide⟩

/-- C8 (amended): `join_room` on an existing room always installs a freshly
created participant for the connection id — overwriting any existing one —
whose banned flag is initialized from current ban-set membership, whose
last-message time is 0, and whose role comes from the (unchecked) client
claim. -/
theorem join_installs_fresh_participant (db : Db) (sid rid un : String)
    (isHost : Bool) (rd : RoomData)
    (h : getRoomData db rid = some rd) :
    ∃ rd', getRoomData (joinRoom db sid rid un isHost).1 rid = some rd' ∧
      mapGet rd'.users sid =
        some ⟨sid, un, memB sid rd.bannedUsers, 0,
              if isHost then Role.host else Role.viewer⟩ := by
  simp only [joinRoom, h]
  exact ⟨_, mapGet_mapSet_self db rid _, mapGet_mapSet_self rd.users sid _⟩

theorem join_installs_fresh_participant_witness :
    ∃ rd', getRoomData (joinRoom [("r", rdBanW)] "v" "r" "carol" false).1 "r" =
        some rd' ∧
      mapGet rd'.users "v" = some ⟨"v", "carol", true, 0, Role.viewer⟩ :=
  join_installs_fresh_participant [("r", rdBanW)] "v" "r" "carol" false
    rdBanW rfl

theorem reactToggle_eq (r : List (String × List String)) (em sid : String) :
    reactToggle r em sid =
      if memB sid ((mapGet r em).getD []) = true then
        (if ((((mapGet r em).getD []).erase sid).isEmpty) = true then
          mapDelete r em
         else mapSet r em (((mapGet r em).getD []).erase sid))
      else mapSet r em (((mapGet r em).getD []) ++ [sid]) := rfl

theorem eq_singleton_of_erase_empty (l : List String) (a : String)
    (hmem : a ∈ l) (hemp : l.erase a = []) : l = [a] := by
  cases l with
  | nil => cases hmem
  | cons b t =>
      by_cases hba : b = a
      · subst hba
        rw [List.erase_cons_head] at hemp
        rw [hemp]
      · rw [List.erase_cons, if_neg (by simpa using hba)] at hemp
        cases hemp

theorem mem_erase_append_self (l : List String) (a uid : String)
    (h : a ∈ l) (hnd : l.Nodup) :
    uid ∈ l.erase a ++ [a] ↔ uid ∈ l := by
  simp only [List.mem_append, List.mem_singleton, hnd.mem_erase_iff]
  constructor
  · rintro (⟨_, h2⟩ | h2)
    · exact h2
    · exact h2 ▸ h
  · intro h2
    by_cases hu : uid = a
    · exact Or.inr hu
    · exact Or.inl ⟨hu, h2⟩

/-- Double toggle restores the reaction state, viewed as the
symbol-to-reactor-set mapping of the spec's data model. -/
theorem reactToggle_reactToggle_view (r : List (String × List String))
    (em sid : String)
    (hknd : (keys r).Nodup)
    (hnd : ((mapGet r em).getD []).Nodup) :
    ∀ em' uid,
      reactedBy (reactToggle (reactToggle r em sid) em sid) em' uid ↔
        reactedBy r em' uid := by
  intro em' uid
  unfold reactedBy
  by_cases hmem : memB sid ((mapGet r em).getD []) = true
  · rw [memB_iff] at hmem
    by_cases hemp : ((mapGet r em).getD []).erase sid = []
    · -- removing the only reactor: key dropped, then re-added as [sid]
      have hsingle : (mapGet r em).getD [] = [sid] :=
        eq_singleton_of_erase_empty _ sid hmem hemp
      have hstep1 : reactToggle r em sid = mapDelete r em := by
        rw [reactToggle_eq, if_pos (by rw [memB_iff]; exact hmem),
          if_pos (by rw [hemp]; rfl)]
      have hget1 : mapGet (mapDelete r em) em = none :=
        mapGet_mapDelete_self r em hknd
      have hstep2 : reactToggle (mapDelete r em) em sid =
          mapSet (mapDelete r em) em ([] ++ [sid]) := by
        rw [reactToggle_eq, hget1]
        rfl
      rw [hstep1, hstep2]
      by_cases hem : em' = em
      · subst hem
        rw [mapGet_mapSet_self, hsingle]
        simp
      · rw [mapGet_mapSet_ne _ _ _ _ hem, mapGet_mapDelete_ne _ _ _ hem]
    · -- removing one of several reactors, then re-adding at the end
      have hne : sid ∉ ((mapGet r em).getD []).erase sid :=
        fun hc => (hnd.mem_erase_iff.mp hc).1 rfl
      have hstep1 : reactToggle r em sid =
          mapSet r em (((mapGet r em).getD []).erase sid) := by
        rw [reactToggle_eq, if_pos (by rw [memB_iff]; exact hmem),
          if_neg (by simp [List.isEmpty_iff, hemp])]
      have hget1 : mapGet (mapSet r em (((mapGet r em).getD []).erase sid))
          em = some (((mapGet r em).getD []).erase sid) :=
        mapGet_mapSet_self r em _
      have hstep2 : reactToggle (mapSet r em
            (((mapGet r em).getD []).erase sid)) em sid =
          mapSet (mapSet r em (((mapGet r em).getD []).erase sid)) em
            ((((mapGet r em).getD []).erase sid) ++ [sid]) := by
        rw [reactToggle_eq, hget1]
        simp only [Option.getD_some]
        rw [if_neg (by rw [memB_iff]; exact hne)]
      rw [hstep1, hstep2]
      by_cases hem : em' = em
      · subst hem
        rw [mapGet_mapSet_self]
        simp only [Option.getD_some]
        exact mem_erase_append_self _ sid uid hmem hnd
      · rw [mapGet_mapSet_ne _ _ _ _ hem, mapGet_mapSet_ne _ _ _ _ hem]
  · -- sid was not a reactor: added at the end, then erased again
    have hmem' : sid ∉ (mapGet r em).getD [] := by
      intro hc
      rw [← memB_iff] at hc
      exact hmem hc
    have hstep1 : reactToggle r em sid =
        mapSet r em (((mapGet r em).getD []) ++ [sid]) := by
      rw [reactToggle_eq, if_neg hmem]
    have hget1 : mapGet (mapSet r em (((mapGet r em).getD []) ++ [sid])) em =
        some (((mapGet r em).getD []) ++ [sid]) :=
      mapGet_mapSet_self r em _
    have herase : ((((mapGet r em).getD []) ++ [sid]).erase sid) =
        (mapGet r em).getD [] := by
      rw [List.erase_append_right _ hmem', List.erase_cons_head,
        List.append_nil]
    have hmem2 : memB sid (((mapGet r em).getD []) ++ [sid]) = true := by
      rw [memB_iff]
      exact List.mem_append_right _ (List.mem_singleton_self sid)
    by_cases hempl : (mapGet r em).getD [] = []
    · have hstep2 : reactToggle (mapSet r em
            (((mapGet r em).getD []) ++ [sid])) em sid =
          mapDelete (mapSet r em (((mapGet r em).getD []) ++ [sid])) em := by
        rw [reactToggle_eq, hget1]
        simp only [Option.getD_some]
        rw [if_pos hmem2, if_pos (by rw [herase, hempl]; rfl)]
      rw [hstep1, hstep2]
      by_cases hem : em' = em
      · subst hem
        rw [mapGet_mapDelete_self _ _ (keys_mapSet_nodup r _ _ hknd), hempl]
        exact Iff.rfl
      · rw [mapGet_mapDelete_ne _ _ _ hem, mapGet_mapSet_ne _ _ _ _ hem]
    · have hstep2 : reactToggle (mapSet r em
            (((mapGet r em).getD []) ++ [sid])) em sid =
          mapSet (mapSet r em (((mapGet r em).getD []) ++ [sid])) em
            ((mapGet r em).getD []) := by
        rw [reactToggle_eq, hget1]
        simp only [Option.getD_some]
        rw [if_pos hmem2, herase,
          if_neg (by simp [List.isEmpty_iff, hempl])]
      rw [hstep1, hstep2]
      by_cases hem : em' = em
      · subst hem
        rw [mapGet_mapSet_self]
        simp
      · rw [mapGet_mapSet_ne _ _ _ _ hem, mapGet_mapSet_ne _ _ _ _ hem]

theorem findMsg_updateFirst (ms : List Message) (mid : String)
    (f : Message → Message) (hid : ∀ m, (f m).id = m.id) :
    findMsg (updateFirst ms mid f) mid = (findMsg ms mid).map f := by
  induction ms with
  | nil => rfl
  | cons m ms ih =>
      by_cases h : m.id = mid
      · rw [updateFirst, if_pos h, findMsg, if_pos ((hid m).trans h),
          findMsg, if_pos h]
        rfl
      · rw [updateFirst, if_neg h, findMsg, if_neg h, findMsg, if_neg h, ih]

/-- One `add_reaction` call, seen at the room level: the found (first
matching) message's reaction map is replaced by its toggle. -/
theorem addReaction_step (db : Db) (sid rid mid em : String)
    (rd : RoomData) (msg : Message)
    (h : getRoomData db rid = some rd)
    (hm : findMsg rd.messages mid = some msg) :
    getRoomData (addReaction db sid rid mid em).1 rid =
      some { rd with
             messages := updateFirst rd.messages mid (fun m =>
               { m with reactions := reactToggle msg.reactions em sid }) } := by
  simp only [addReaction, h, hm]
  exact mapGet_mapSet_self db rid _

/-- C7: toggling the same (connection, message, symbol) reaction twice
returns the message's reaction state — the symbol-to-reactor-set mapping of
the spec's data model — to its value before the first toggle; and a removal
that empties a symbol's reactor set drops that symbol's key from the map
entirely.  The `Nodup` hypotheses are representation invariants of the JS
values being modelled: object keys are unique by construction, and the
handler only pushes a reactor it did not find, so reactor arrays hold no
duplicates. -/
theorem react_double_toggle (db : Db) (sid rid mid em : String)
    (rd : RoomData) (msg : Message)
    (h : getRoomData db rid = some rd)
    (hm : findMsg rd.messages mid = some msg)
    (hknd : (keys msg.reactions).Nodup)
    (hnd : ((mapGet msg.reactions em).getD []).Nodup) :
    (∃ rd' msg',
      getRoomData (addReaction (addReaction db sid rid mid em).1
        sid rid mid em).1 rid = some rd' ∧
      findMsg rd'.messages mid = some msg' ∧
      ∀ em' uid, reactedBy msg'.reactions em' uid ↔
        reactedBy msg.reactions em' uid) ∧
    (∀ l, mapGet msg.reactions em = some l → memB sid l = true →
      (l.erase sid).isEmpty = true →
      ∃ rd1 msg1,
        getRoomData (addReaction db sid rid mid em).1 rid = some rd1 ∧
        findMsg rd1.messages mid = some msg1 ∧
        mapGet msg1.reactions em = none) := by
  have h1 := addReaction_step db sid rid mid em rd msg h hm
  have hm1 : findMsg (updateFirst rd.messages mid (fun m =>
      { m with reactions := reactToggle msg.reactions em sid })) mid =
      some { msg with reactions := reactToggle msg.reactions em sid } := by
    rw [findMsg_updateFirst rd.messages mid (fun m =>
      { m with reactions := reactToggle msg.reactions em sid })
      (fun m => rfl), hm]
    rfl
  constructor
  · have H2 := addReaction_step (addReaction db sid rid mid em).1 sid rid mid em _ _ h1 hm1
    refine ⟨_, { msg with reactions := reactToggle (reactToggle msg.reactions em sid) em sid }, H2, ?_, ?_⟩
    · have h3 := findMsg_updateFirst (updateFirst rd.messages mid (fun m => { m with reactions := reactToggle msg.reactions em sid })) mid (fun m => { m with reactions := reactToggle ({ msg with reactions := reactToggle msg.reactions em sid } : Message).reactions em sid }) (fun m => rfl)
      rw [hm1] at h3
      exact h3
    · exact reactToggle_reactToggle_view msg.reactions em sid hknd hnd
  · intro l hget hmem hemp
    refine ⟨_, _, h1, hm1, ?_⟩
    show mapGet (reactToggle msg.reactions em sid) em = none
    rw [reactToggle_eq, hget]
    simp only [Option.getD_some]
    rw [if_pos hmem, if_pos hemp]
    exact mapGet_mapDelete_self _ _ hknd

theorem react_double_toggle_witness :
    (∃ rd' msg',
      getRoomData (addReaction (addReaction [("r", rdReactW)] "a" "r" "m1"
        "like").1 "a" "r" "m1" "like").1 "r" = some rd' ∧
      findMsg rd'.messages "m1" = some msg' ∧
      ∀ em' uid, reactedBy msg'.reactions em' uid ↔
        reactedBy msgReactW.reactions em' uid) ∧
    (∃ rd1 msg1,
      getRoomData (addReaction [("r", rdReactW)] "a" "r" "m1" "like").1 "r" =
        some rd1 ∧
      findMsg rd1.messages "m1" = some msg1 ∧
      mapGet msg1.reactions "like" = none) :=
  have H := react_double_toggle [("r", rdReactW)] "a" "r" "m1" "like"
    rdReactW msgReactW rfl rfl (by decide) (by decide)
  ⟨H.1, H.2 ["a"] rfl rfl rfl⟩

theorem banPreserving_refl (db : Db) : BanPreserving db db :=
  fun _ rd h => ⟨rd, h, fun _ hx => hx⟩

theorem banPreserving_trans (db db2 db3 : Db)
    (h12 : BanPreserving db db2) (h23 : BanPreserving db2 db3) :
    BanPreserving db db3 := by
  intro rid rd h
  obtain ⟨rd2, h2, hm2⟩ := h12 rid rd h
  obtain ⟨rd3, h3, hm3⟩ := h23 rid rd2 h2
  exact ⟨rd3, h3, fun x hx => hm3 x (hm2 x hx)⟩

theorem banPreserving_mapSet (db : Db) (r : String) (X rdT : RoomData)
    (hT : getRoomData db r = some rdT)
    (hmono : ∀ x ∈ rdT.bannedUsers, x ∈ X.bannedUsers) :
    BanPreserving db (mapSet db r X) := by
  intro rid rd h
  by_cases hr : rid = r
  · subst hr
    rw [h] at hT
    injection hT with hT
    exact ⟨X, mapGet_mapSet_self db rid X, hT ▸ hmono⟩
  · exact ⟨rd, (mapGet_mapSet_ne db r rid X hr).trans h, fun _ hx => hx⟩

theorem banPreserving_mapSet_fresh (db : Db) (r : String) (X : RoomData)
    (hT : getRoomData db r = none) :
    BanPreserving db (mapSet db r X) := by
  intro rid rd h
  have hr : rid ≠ r := fun he => by rw [he, hT] at h; cases h
  exact ⟨rd, (mapGet_mapSet_ne db r rid X hr).trans h, fun _ hx => hx⟩

theorem banPreserving_addMessage (db : Db) (r : String) (m : Message) :
    BanPreserving db (addMessage db r m) := by
  unfold addMessage
  cases hg : getRoomData db r with
  | none => exact banPreserving_refl db
  | some rdT => exact banPreserving_mapSet db r _ rdT hg (fun _ hx => hx)

theorem banPreserving_disconnect (db : Db) (s : String) :
    BanPreserving db (disconnectCleanup db s).1 := by
  induction db with
  | nil => exact banPreserving_refl []
  | cons p rest ih =>
      obtain ⟨r0, rd0⟩ := p
      intro rid rd h
      unfold disconnectCleanup
      by_cases hpres : (mapGet rd0.users s).isSome = true
      · rw [if_pos hpres]
        by_cases hr : r0 = rid
        · subst hr
          rw [getRoomData, mapGet_cons, if_pos rfl] at h ⊢
          injection h with h
          exact ⟨_, rfl, h ▸ fun _ hx => hx⟩
        · rw [getRoomData, mapGet_cons, if_neg hr] at h ⊢
          exact ih rid rd h
      · rw [if_neg hpres]
        by_cases hr : r0 = rid
        · subst hr
          rw [getRoomData, mapGet_cons, if_pos rfl] at h ⊢
          injection h with h
          exact ⟨_, rfl, h ▸ fun _ hx => hx⟩
        · rw [getRoomData, mapGet_cons, if_neg hr] at h ⊢
          exact ih rid rd h

/-- No single protocol event shrinks any room's ban set (given that
`create_room` ids are fresh). -/
theorem step_ban_preserving (db : Db) (op : Op) (hfresh : opFresh db op) :
    BanPreserving db (step db op).1 := by
  cases op with
  | getRooms => exact banPreserving_refl db
  | createRoom s r n pn pd su hn vu now =>
      simp only [step, createRoomHandler, createRoom]
      exact banPreserving_mapSet_fresh db r _ hfresh
  | joinRoom s r u ih =>
      simp only [step, joinRoom]
      cases hg : getRoomData db r with
      | none => exact banPreserving_refl db
      | some rdT => exact banPreserving_mapSet db r _ rdT hg (fun _ hx => hx)
  | sendMessage s now r t ty un =>
      simp only [step, sendMessage]
      cases hg : getRoomData db r with
      | none => exact banPreserving_refl db
      | some rdT =>
          dsimp only
          cases hu : mapGet rdT.users s with
          | none => exact banPreserving_refl db
          | some u =>
              dsimp only
              by_cases h1 : u.banned = true ∨ memB s rdT.bannedUsers = true
              · rw [if_pos h1]; exact banPreserving_refl db
              · rw [if_neg h1]
                by_cases h2 : ty = MsgType.ANNOUNCEMENT ∧ u.role ≠ Role.host
                · rw [if_pos h2]; exact banPreserving_refl db
                · rw [if_neg h2]
                  by_cases h3 : rdT.slowModeEnabled = true ∧
                      u.role ≠ Role.host ∧ 0 < u.lastMessageTime ∧
                      now - u.lastMessageTime < rdT.slowModeInterval
                  · rw [if_pos h3]; exact banPreserving_refl db
                  · rw [if_neg h3]
                    by_cases h4 : rdT.slowModeEnabled = true ∧
                        u.role ≠ Role.host
                    · rw [if_pos h4]
                      refine banPreserving_trans db (mapSet db r { rdT with users := mapSet rdT.users s { u with lastMessageTime := now } }) _ ?_ ?_
                      · exact banPreserving_mapSet db r _ rdT hg (fun _ hx => hx)
                      · exact banPreserving_addMessage _ r _
                    · rw [if_neg h4]
                      exact banPreserving_addMessage db r _
  | deleteMessage s r m =>
      simp only [step, deleteMessage]
      cases hg : getRoomData db r with
      | none => exact banPreserving_refl db
      | some rdT =>
          dsimp only
          by_cases h1 : ((mapGet rdT.users s).map User.role) ≠ some Role.host
          · rw [if_pos h1]; exact banPreserving_refl db
          · rw [if_neg h1]
            cases findMsg rdT.messages m with
            | some _ =>
                exact banPreserving_mapSet db r _ rdT hg (fun _ hx => hx)
            | none => exact banPreserving_refl db
  | banUser s r u =>
      simp only [step, banUser]
      cases hg : getRoomData db r with
      | none => exact banPreserving_refl db
      | some rdT =>
          dsimp only
          by_cases h1 : ((mapGet rdT.users s).map User.role) ≠ some Role.host
          · rw [if_pos h1]; exact banPreserving_refl db
          · rw [if_neg h1]
            exact banPreserving_mapSet db r _ rdT hg
              (fun x hx => mem_setAdd_of_mem rdT.bannedUsers x u hx)
  | clearAllMessages s r =>
      simp only [step, clearAllMessages]
      cases hg : getRoomData db r with
      | none => exact banPreserving_refl db
      | some rdT =>
          dsimp only
          by_cases h1 : ((mapGet rdT.users s).map User.role) ≠ some Role.host
          · rw [if_pos h1]; exact banPreserving_refl db
          · rw [if_neg h1]
            exact banPreserving_mapSet db r _ rdT hg (fun _ hx => hx)
  | toggleSlowMode s r e =>
      simp only [step, toggleSlowMode]
      cases hg : getRoomData db r with
      | none => exact banPreserving_refl db
      | some rdT =>
          dsimp only
          by_cases h1 : ((mapGet rdT.users s).map User.role) ≠ some Role.host
          · rw [if_pos h1]; exact banPreserving_refl db
          · rw [if_neg h1]
            exact banPreserving_mapSet db r _ rdT hg (fun _ hx => hx)
  | leaveRoom s r =>
      simp only [step, leaveRoom]
      cases hg : getRoomData db r with
      | none => exact banPreserving_refl db
      | some rdT => exact banPreserving_mapSet db r _ rdT hg (fun _ hx => hx)
  | addReaction s r m e =>
      simp only [step, addReaction]
      cases hg : getRoomData db r with
      | none => exact banPreserving_refl db
      | some rdT =>
          dsimp only
          cases findMsg rdT.messages m with
          | none => exact banPreserving_refl db
          | some msg =>
              exact banPreserving_mapSet db r _ rdT hg (fun _ hx => hx)
  | disconnect s => exact banPreserving_disconnect db s

/-- C9: ban-set membership is monotonic — no protocol operation removes an
entry (there is no unban event), so after any sequence of operations every
previously banned connection id is still in its room's ban set.  The
`FreshRun` hypothesis records that generated `create_room` ids are fresh
(overwriting an existing room with a colliding generated id is the one way
a ban set could be replaced wholesale). -/
theorem ban_set_monotonic (db : Db) (ops : List Op)
    (hfresh : FreshRun db ops) (rid : String) (rd : RoomData)
    (h : getRoomData db rid = some rd) :
    ∃ rd', getRoomData (runOps db ops) rid = some rd' ∧
      ∀ x ∈ rd.bannedUsers, x ∈ rd'.bannedUsers := by
  induction ops generalizing db rd with
  | nil => exact ⟨rd, h, fun _ hx => hx⟩
  | cons op ops ih =>
      obtain ⟨hf, hfs⟩ := hfresh
      obtain ⟨rd2, h2, hm2⟩ := step_ban_preserving db op hf rid rd h
      obtain ⟨rd3, h3, hm3⟩ := ih (step db op).1 hfs rd2 h2
      exact ⟨rd3, h3, fun x hx => hm3 x (hm2 x hx)⟩

theorem ban_set_monotonic_witness :
    ∃ rd', getRoomData (runOps [("r", rdBanW)]
        [Op.banUser "h" "r" "w", Op.leaveRoom "v" "r",
         Op.createRoom "z" "r2" "N2" "P2" "D2" "" "Z" "" 7,
         Op.disconnect "h"]) "r" = some rd' ∧
      ∀ x ∈ rdBanW.bannedUsers, x ∈ rd'.bannedUsers :=
  ban_set_monotonic [("r", rdBanW)]
    [Op.banUser "h" "r" "w", Op.leaveRoom "v" "r",
     Op.createRoom "z" "r2" "N2" "P2" "D2" "" "Z" "" 7,
     Op.disconnect "h"]
    ⟨trivial, trivial, rfl, trivial, trivial⟩ "r" rdBanW rfl

end LiveChat

